import Mathlib

/-!
Shallow embedding of the tile-grid routing simulation in src/my_game.py:
the classes Direction, Tile, Chuchu, Emitter, Drain, Annotation (here named
Annot, see its doc comment) and Level, restricted to the simulation core
(rendering, textures and input are out of scope, as in the spec).

Conventions of the embedding:
- Screen coordinates and time deltas are rationals; the Python float values
  the program manipulates here (multiples of halves of screen units) are
  represented exactly.
- arcade.get_distance(p, q) compared with the tolerance IS_ON_TILE_DIFF = 1.0
  is embedded as the squared Euclidean distance compared with the squared
  tolerance, which is equivalent for a nonnegative tolerance and avoids
  square roots.
- Python assertions (Chuchu.move called with Direction.NONE, a waiting Chuchu
  not on any tile) and the KeyError on an unknown tile type code are embedded
  as Option: a fatal error makes the function return none.
- Methods that mutate an object in place become functions from the old value
  to the new value; the simulation step threads the state explicitly.
-/

/-- Direction enum of my_game.py: the four cardinal unit deltas plus NONE. -/
inductive Direction where
  | UP
  | DOWN
  | LEFT
  | RIGHT
  | NONE
deriving DecidableEq

/-- The (dx, dy) value attached to each Direction member. -/
def Direction.delta : Direction → ℚ × ℚ
  | .UP => (0, 1)
  | .DOWN => (0, -1)
  | .LEFT => (-1, 0)
  | .RIGHT => (1, 0)
  | .NONE => (0, 0)

/-- Direction.__mul__: multiply every component of the delta by a scalar. -/
def Direction.mulScalar (d : Direction) (s : ℚ) : ℚ × ℚ :=
  (s * d.delta.1, s * d.delta.2)

def TILE_SCALING : ℚ := 4

def TILE_SIZE : ℚ := TILE_SCALING * 16

/-- When a Chuchu is closer to its destination than this, it has arrived. -/
def IS_ON_TILE_DIFF : ℚ := 1

def DRAIN_OPEN_TIME : ℚ := 1 / 2

def ANNOTATION_LIFETIME_SECONDS : ℚ := 10

def ANNOTATION_MIN_ALPHA : ℚ := 0

def ANNOTATION_MAX_NO : Nat := 3

/-- Squared Euclidean distance between two screen points. -/
def sqDist (p q : ℚ × ℚ) : ℚ :=
  (p.1 - q.1) * (p.1 - q.1) + (p.2 - q.2) * (p.2 - q.2)

/-- A Tile: its small integer type code and its fixed screen position. -/
structure Tile where
  type : Nat
  position : ℚ × ℚ
deriving DecidableEq

/-- Tile.types, the class dictionary keyed by type code: for each code the
mapping from entry Direction to exit Direction (none = no explicit rule for
that entry direction).  The texture_no entry of code 0 is a string key, not a
Direction key, so code 0 has no Direction rules.  A code outside 0..8 is not
a key of the dictionary: looking it up raises KeyError, embedded as none. -/
def Tile.types (code : Nat) : Option (Direction → Option Direction) :=
  match code with
  | 0 => some fun _ => none
  | 1 => some fun d => match d with
      | .UP => some .RIGHT
      | _ => none
  | 2 => some fun d => match d with
      | .RIGHT => some .DOWN
      | _ => none
  | 3 => some fun d => match d with
      | .DOWN => some .LEFT
      | _ => none
  | 4 => some fun d => match d with
      | .LEFT => some .UP
      | _ => none
  | 5 => some fun d => match d with
      | .UP => some .RIGHT
      | .LEFT => some .DOWN
      | _ => none
  | 6 => some fun d => match d with
      | .RIGHT => some .DOWN
      | .UP => some .LEFT
      | _ => none
  | 7 => some fun d => match d with
      | .DOWN => some .LEFT
      | .RIGHT => some .UP
      | _ => none
  | 8 => some fun d => match d with
      | .LEFT => some .UP
      | .DOWN => some .RIGHT
      | _ => none
  | _ => none

/-- Tile.get_out_direction: Tile.types[self.__type].get(direction_in,
direction_in) — dictionary lookup with the entry direction itself as the
default; none models the KeyError raised for an unknown type code. -/
def Tile.get_out_direction (t : Tile) (direction_in : Direction) : Option Direction :=
  (Tile.types t.type).map fun rule => (rule direction_in).getD direction_in

/-- A Chuchu (mouse): direction, per-tile speed in ticks, continuous screen
position, destination screen coordinates, per-axis velocity, and the
waiting-for-orders (idle) flag. -/
structure Chuchu where
  my_direction : Direction
  my_speed : ℚ
  position : ℚ × ℚ
  my_destination_screen_coordinates : ℚ × ℚ
  change_x : ℚ
  change_y : ℚ
  waiting_for_orders : Bool
deriving DecidableEq

/-- Chuchu.move: asserts the direction is not NONE (none = assertion failure),
updates my_direction, sets the destination to the current position displaced
by direction times TILE_SIZE, recomputes the per-axis velocity as
(destination - position) / my_speed, and clears waiting_for_orders. -/
def Chuchu.move (c : Chuchu) (new_direction : Direction) : Option Chuchu :=
  if new_direction = Direction.NONE then none
  else
    let dest : ℚ × ℚ :=
      ((new_direction.mulScalar TILE_SIZE).1 + c.position.1,
       (new_direction.mulScalar TILE_SIZE).2 + c.position.2)
    some { c with
      my_direction := new_direction
      my_destination_screen_coordinates := dest
      change_x := (dest.1 - c.position.1) / c.my_speed
      change_y := (dest.2 - c.position.2) / c.my_speed
      waiting_for_orders := false }

/-- Chuchu.on_update: if the distance to the destination exceeds
IS_ON_TILE_DIFF, advance the position by the velocity scaled by delta_time;
otherwise snap the position exactly to the destination and set
waiting_for_orders.  (update_animation only changes textures and is not part
of the simulation state.) -/
def Chuchu.on_update (c : Chuchu) (delta_time : ℚ) : Chuchu :=
  if sqDist c.my_destination_screen_coordinates c.position > IS_ON_TILE_DIFF * IS_ON_TILE_DIFF then
    { c with position :=
        (c.position.1 + c.change_x * delta_time, c.position.2 + c.change_y * delta_time) }
  else
    { c with
      position := c.my_destination_screen_coordinates
      waiting_for_orders := true }

/-- The Annotation class of my_game.py (a transient, player-placed directional
override anchored to a grid cell).  Named Annot here; the owner is identified
by a numeric id (Python compares owners by object identity). -/
structure Annot where
  direction : Direction
  owner : Nat
  position : ℚ × ℚ
  max_lifetime : ℚ
  lifetime : ℚ
  alpha : ℚ
deriving DecidableEq

/-- The field updates Annotation.on_update applies to an annotation that was
not killed this call: alpha recomputed from the remaining lifetime, then the
lifetime decremented by delta_time. -/
def Annot.ageOne (delta_time : ℚ) (a : Annot) : Annot :=
  { a with
    alpha := max (255 * a.lifetime / a.max_lifetime) ANNOTATION_MIN_ALPHA
    lifetime := a.lifetime - delta_time }

/-- SpriteList.on_update over the annotations list: a CPython for-loop by
internal index over a list that elements may remove themselves from.  An
element whose lifetime is <= 0 at entry to its on_update kills itself (it is
removed from the list before its alpha and lifetime fields are touched, so
those dead-object writes are invisible); the removal shifts the list left, so
the loop's next index skips the following element, which stays in the list
unprocessed for this call. -/
def annotsOnUpdate (delta_time : ℚ) : List Annot → List Annot
  | [] => []
  | a :: todo =>
    if a.lifetime ≤ 0 then
      match todo with
      | [] => []
      | b :: todo2 => b :: annotsOnUpdate delta_time todo2
    else Annot.ageOne delta_time a :: annotsOnUpdate delta_time todo

/-- An Emitter: cooldown rate and timer, total capacity, fixed emit
direction, screen position, and the queue of pre-constructed pending
Chuchus (filled to capacity at construction). -/
structure Emitter where
  emit_rate : ℚ
  emit_timer : ℚ
  capacity : Nat
  emit_direction : Direction
  position : ℚ × ℚ
  chuchus_queue : List Chuchu
deriving DecidableEq

/-- Emitter.get_chuchu: if the queue is non-empty (any of the sprites, all
truthy) and the cooldown timer is <= 0, reset the timer to emit_rate and pop
the last queued Chuchu; otherwise release nothing and change nothing. -/
def Emitter.get_chuchu (e : Emitter) : Option Chuchu × Emitter :=
  if e.chuchus_queue ≠ [] ∧ e.emit_timer ≤ 0 then
    match e.chuchus_queue.getLast? with
    | some c =>
      (some c, { e with
        emit_timer := e.emit_rate
        chuchus_queue := e.chuchus_queue.dropLast })
    | none => (none, e)
  else (none, e)

/-- Emitter.on_update: age the cooldown timer while it is positive. -/
def Emitter.on_update (e : Emitter) (delta_time : ℚ) : Emitter :=
  if e.emit_timer > 0 then { e with emit_timer := e.emit_timer - delta_time }
  else e

/-- A Drain: screen position, count of consumed Chuchus, and the transient
open-texture timer and flag (display state only). -/
structure Drain where
  position : ℚ × ℚ
  no_drained : Nat
  open_time_seconds : ℚ
  showing_open : Bool
deriving DecidableEq

/-- Drain.drained: a Chuchu has been consumed — increment the counter, show
the open texture and start its timer. -/
def Drain.drained (d : Drain) : Drain :=
  { d with
    no_drained := d.no_drained + 1
    showing_open := true
    open_time_seconds := DRAIN_OPEN_TIME }

/-- Drain.on_update: age the open-texture timer; once it has gone negative,
revert to the closed texture and zero the timer. -/
def Drain.on_update (d : Drain) (delta_time : ℚ) : Drain :=
  if d.open_time_seconds > 0 then
    { d with open_time_seconds := d.open_time_seconds - delta_time }
  else if d.open_time_seconds < 0 then
    { d with showing_open := false, open_time_seconds := 0 }
  else d

/-- Level.get_sprite_from_screen_coordinates: return the first sprite of the
list whose position lies within IS_ON_TILE_DIFF of the given coordinates
(squared distances compared, see the file header).  The pos argument reads a
sprite's position field. -/
def get_sprite_from_screen_coordinates {α : Type} (coordinates : ℚ × ℚ)
    (sprite_list : List α) (pos : α → ℚ × ℚ) : Option α :=
  sprite_list.find? fun t => decide (sqDist (pos t) coordinates < IS_ON_TILE_DIFF * IS_ON_TILE_DIFF)

/-- Index form of the lookup above, used where the found sprite is updated in
place in its list (the drain hit in the simulation step): the index of the
first drain within tolerance of the coordinates. -/
def drain_index_from_screen_coordinates (coordinates : ℚ × ℚ) (ds : List Drain) : Option Nat :=
  ds.findIdx? fun d => decide (sqDist d.position coordinates < IS_ON_TILE_DIFF * IS_ON_TILE_DIFF)

/-- Replace the element at an index by applying f to it (out-of-range indexes
leave the list unchanged). -/
def listModify {α : Type} (f : α → α) : Nat → List α → List α
  | _, [] => []
  | 0, x :: xs => f x :: xs
  | n + 1, x :: xs => x :: listModify f n xs

/-- The body Level.on_update runs for one Chuchu that is not consumed by a
drain this step: if it is waiting for orders, first move it in the direction
of an annotation at its position when one exists, then look up the tile at
its position (none = the fatal assertion that the Chuchu was on no tile) and
move it in the tile's out direction for its current direction (which, after
an annotation hit, is already the annotation's direction); finally run the
Chuchu's own on_update.  A Chuchu not waiting for orders only runs its
on_update. -/
def processChuchu (delta_time : ℚ) (tiles : List Tile) (anns : List Annot)
    (c : Chuchu) : Option Chuchu :=
  if c.waiting_for_orders then
    let after_ann : Option Chuchu :=
      match get_sprite_from_screen_coordinates c.position anns Annot.position with
      | some a => c.move a.direction
      | none => some c
    match after_ann with
    | none => none
    | some c1 =>
      match get_sprite_from_screen_coordinates c1.position tiles Tile.position with
      | none => none
      | some t =>
        match t.get_out_direction c1.my_direction with
        | none => none
        | some d2 =>
          match c1.move d2 with
          | none => none
          | some c2 => some (c2.on_update delta_time)
  else some (c.on_update delta_time)

/-- The for-loop over self.chuchus in Level.on_update.  For each Chuchu in
order: if it is waiting for orders and sits on a drain, the Chuchu is killed
(removed), that drain's counter is incremented, and the loop breaks — the
remaining Chuchus are returned untouched (neither resolved nor advanced this
step).  Otherwise the Chuchu is processed by processChuchu and the loop
continues.  Returns the updated Chuchu list and drain list, or none when a
fatal assertion fires. -/
def handleChuchus (delta_time : ℚ) (tiles : List Tile) (anns : List Annot) :
    List Chuchu → List Drain → Option (List Chuchu × List Drain)
  | [], ds => some ([], ds)
  | c :: rest, ds =>
    match (if c.waiting_for_orders then
        drain_index_from_screen_coordinates c.position ds
      else none) with
    | some i => some (rest, listModify Drain.drained i ds)
    | none =>
      match processChuchu delta_time tiles anns c with
      | none => none
      | some c2 =>
        match handleChuchus delta_time tiles anns rest ds with
        | none => none
        | some p => some (c2 :: p.1, p.2)

/-- Applying processChuchu to every Chuchu of a list, with no drain
consumption anywhere: the behaviour of the loop above in a step where no
waiting Chuchu sits on a drain. -/
def processAllChuchus (delta_time : ℚ) (tiles : List Tile) (anns : List Annot) :
    List Chuchu → Option (List Chuchu)
  | [] => some []
  | c :: rest =>
    match processChuchu delta_time tiles anns c,
        processAllChuchus delta_time tiles anns rest with
    | some c2, some rest2 => some (c2 :: rest2)
    | _, _ => none

/-- The emitter segment of Level.on_update: for each emitter in order, call
get_chuchu (collecting any released Chuchu) and then the emitter's own
on_update.  Returns the updated emitters and the released Chuchus in emitter
order. -/
def emittersPhase (delta_time : ℚ) : List Emitter → List Emitter × List Chuchu
  | [] => ([], [])
  | e :: es =>
    let r := e.get_chuchu
    let e2 := r.2.on_update delta_time
    let rest := emittersPhase delta_time es
    (e2 :: rest.1, (match r.1 with
      | some c => [c]
      | none => []) ++ rest.2)

/-- The Level: the collections the simulation core owns, and the countdown
clock.  (Players and walls do not participate in the update step.) -/
structure Level where
  tiles : List Tile
  chuchus : List Chuchu
  emitters : List Emitter
  drains : List Drain
  annotations : List Annot
  time_left : ℚ
deriving DecidableEq

/-- Level.on_update: one discrete simulation step.  Order as in the source:
age and reap annotations, age the drain timers, pull Chuchus from emitters
(appending any released Chuchu to the active collection and aging each
emitter's cooldown), run the waiting-Chuchu loop, and finally decrement the
level clock.  none models a fatal assertion inside the Chuchu loop. -/
def Level.on_update (st : Level) (delta_time : ℚ) : Option Level :=
  let anns := annotsOnUpdate delta_time st.annotations
  let ds := st.drains.map fun d => d.on_update delta_time
  let er := emittersPhase delta_time st.emitters
  match handleChuchus delta_time st.tiles anns (st.chuchus ++ er.2) ds with
  | none => none
  | some p =>
    some { st with
      annotations := anns
      drains := p.2
      emitters := er.1
      chuchus := p.1
      time_left := st.time_left - delta_time }

/-- Total number of Chuchus consumed across all drains. -/
def total_drained (ds : List Drain) : Nat :=
  (ds.map fun d => d.no_drained).sum

/-- Total capacity across all emitters. -/
def total_capacity (es : List Emitter) : Nat :=
  (es.map fun e => e.capacity).sum

/-- CPython is applied to two independently computed int objects, as in
Level.level_clear where both operands are fresh results of sum(): the two
objects are identical exactly when the values are equal and lie in the
interpreter's small-int cache (-5 to 256; both operands here are
nonnegative). -/
def pyIs (a b : Nat) : Bool :=
  a == b && a ≤ 256

/-- Level.level_clear: true when sum of drained counts is sum of emitter
capacities (the source compares the two sums with the Python is operator,
embedded by pyIs), or when the clock has run out. -/
def Level.level_clear (st : Level) : Bool :=
  if pyIs (total_drained st.drains) (total_capacity st.emitters) then true
  else if st.time_left ≤ 0 then true
  else false

/-- Remove the first annotation of the list belonging to the given owner:
the effect of self.annotations[self.annotations.index(a[0])].kill() in
Level.add_annotation, where a[0] is the owner's first (oldest, since the
list only ever appends) annotation. -/
def eraseFirstOwned (owner : Nat) : List Annot → List Annot
  | [] => []
  | a :: rest =>
    if a.owner = owner then rest
    else a :: eraseFirstOwned owner rest

/-- The Annotation constructed by Level.add_annotation: placed at the owner's
position with full lifetime (a fresh sprite's alpha is 255). -/
def mkAnnot (direction : Direction) (owner : Nat) (owner_position : ℚ × ℚ) : Annot :=
  { direction := direction
    owner := owner
    position := owner_position
    max_lifetime := ANNOTATION_LIFETIME_SECONDS
    lifetime := ANNOTATION_LIFETIME_SECONDS
    alpha := 255 }

/-- Level.add_annotation: do nothing if an annotation already lies within
tolerance of the owner's position; otherwise, if the owner already has at
least ANNOTATION_MAX_NO annotations, remove their oldest one; then append
the new annotation. -/
def Level.add_annot (st : Level) (owner : Nat) (owner_position : ℚ × ℚ)
    (direction : Direction) : Level :=
  if (get_sprite_from_screen_coordinates owner_position st.annotations Annot.position).isSome then
    st
  else
    let owned := st.annotations.filter fun a => a.owner == owner
    let pruned :=
      if ANNOTATION_MAX_NO ≤ owned.length then eraseFirstOwned owner st.annotations
      else st.annotations
    { st with annotations := pruned ++ [mkAnnot direction owner owner_position] }

/-- One external interaction with an Emitter: a cooldown tick or a release
attempt (get_chuchu). -/
inductive EmitterOp where
  | tick (delta_time : ℚ)
  | tryRelease
deriving DecidableEq

/-- Run a sequence of emitter operations, returning the final emitter and the
number of Chuchus released along the way. -/
def runOps (e : Emitter) : List EmitterOp → Emitter × Nat
  | [] => (e, 0)
  | EmitterOp.tick dt :: ops => runOps (e.on_update dt) ops
  | EmitterOp.tryRelease :: ops =>
    let r := e.get_chuchu
    let rest := runOps r.2 ops
    (rest.1, (if r.1.isSome then 1 else 0) + rest.2)

/-- A waiting Chuchu parked at (100, 100), previously travelling UP. -/
def cWait : Chuchu :=
  { my_direction := .UP
    my_speed := 2
    position := (100, 100)
    my_destination_screen_coordinates := (100, 100)
    change_x := 0
    change_y := 0
    waiting_for_orders := true }

/-- A moving Chuchu at (200, 100) heading RIGHT towards (264, 100). -/
def cMove : Chuchu :=
  { my_direction := .RIGHT
    my_speed := 2
    position := (200, 100)
    my_destination_screen_coordinates := (264, 100)
    change_x := 32
    change_y := 0
    waiting_for_orders := false }

/-- A drain at (100, 100) that has consumed nothing yet. -/
def drainAt100 : Drain :=
  { position := (100, 100), no_drained := 0, open_time_seconds := 0, showing_open := false }

/-- An annotation pointing UP at (100, 100), halfway through its lifetime. -/
def annUp100 : Annot :=
  { direction := .UP, owner := 0, position := (100, 100),
    max_lifetime := 10, lifetime := 5, alpha := 255 }

/-- An annotation pointing DOWN at (100, 100) with its full lifetime left. -/
def annDown100 : Annot :=
  { direction := .DOWN, owner := 0, position := (100, 100),
    max_lifetime := 10, lifetime := 10, alpha := 255 }

/-- A tile of type 1 (rule UP to RIGHT) at (100, 100). -/
def tile1At100 : Tile := { type := 1, position := (100, 100) }

/-- A tile of type 0 (no rules) at (100, 100). -/
def tile0At100 : Tile := { type := 0, position := (100, 100) }

/-- Level for the C1 scenario: a waiting Chuchu that entered UP on a type-1
tile (which routes UP to RIGHT), with an annotation specifying UP on the same
cell. -/
def st_C1 : Level :=
  { tiles := [tile1At100], chuchus := [cWait], emitters := [],
    drains := [], annotations := [annUp100], time_left := 60 }

/-- Level for the C2 scenario: the first Chuchu is waiting on a drain cell,
the second is moving with nonzero velocity. -/
def st_C2 : Level :=
  { tiles := [], chuchus := [cWait, cMove], emitters := [],
    drains := [drainAt100], annotations := [], time_left := 60 }

/-- Level for the C6 scenario: an annotation with exactly 10 seconds of
lifetime left (it expires on a step of delta_time = 10) on a type-0 tile,
with a waiting Chuchu on the same cell. -/
def st_C6 : Level :=
  { tiles := [tile0At100], chuchus := [cWait], emitters := [],
    drains := [], annotations := [annDown100], time_left := 60 }

/-- An emitter of capacity 257 whose whole queue has been released. -/
def em257 : Emitter :=
  { emit_rate := 2, emit_timer := 0, capacity := 257, emit_direction := .RIGHT,
    position := (100, 100), chuchus_queue := [] }

/-- A drain that has consumed 257 Chuchus. -/
def drain257 : Drain :=
  { position := (164, 100), no_drained := 257, open_time_seconds := 0, showing_open := false }

/-- Level state where every one of the 257 emitted Chuchus has been drained
and time remains: by the spec the level is clear. -/
def st_C3 : Level :=
  { tiles := [], chuchus := [], emitters := [em257], drains := [drain257],
    annotations := [], time_left := 1 }

/-- The same situation with totals 5 and 5 (inside the small-int cache). -/
def st_C3_small : Level :=
  { tiles := [], chuchus := [], emitters :=
      [{ emit_rate := 2, emit_timer := 0, capacity := 5, emit_direction := .RIGHT,
         position := (100, 100), chuchus_queue := [] }],
    drains :=
      [{ position := (164, 100), no_drained := 5, open_time_seconds := 0,
         showing_open := false }],
    annotations := [], time_left := 1 }

/-- An emitter of capacity 2 with a full queue and an expired cooldown. -/
def em2 : Emitter :=
  { emit_rate := 2, emit_timer := 0, capacity := 2, emit_direction := .RIGHT,
    position := (0, 0), chuchus_queue := [cMove, cMove] }

/-- An operation sequence attempting more releases than em2's capacity. -/
def ops_C5 : List EmitterOp :=
  [.tryRelease, .tick 1, .tryRelease, .tick 3, .tryRelease, .tryRelease]

/-- Three annotations owned by player 0 at distinct cells (oldest first) and
one owned by player 1, as they sit in a level's append-ordered list. -/
def anns_C7 : List Annot :=
  [ { direction := .UP, owner := 0, position := (0, 0),
      max_lifetime := 10, lifetime := 3, alpha := 255 }
  , { direction := .LEFT, owner := 1, position := (64, 0),
      max_lifetime := 10, lifetime := 9, alpha := 255 }
  , { direction := .RIGHT, owner := 0, position := (128, 0),
      max_lifetime := 10, lifetime := 5, alpha := 255 }
  , { direction := .DOWN, owner := 0, position := (192, 0),
      max_lifetime := 10, lifetime := 7, alpha := 255 } ]

/-- Level holding anns_C7, for exercising annotation eviction. -/
def st_C7 : Level :=
  { tiles := [], chuchus := [], emitters := [], drains := [],
    annotations := anns_C7, time_left := 60 }

/-! ## Helper lemmas -/

/-- A successful Chuchu.move leaves the position unchanged. -/
theorem Chuchu.move_position {c c' : Chuchu} {d : Direction}
    (h : c.move d = some c') : c'.position = c.position := by
  unfold Chuchu.move at h
  by_cases hd : d = Direction.NONE
  · simp [hd] at h
  · rw [if_neg hd] at h
    cases h
    rfl

/-- A successful Chuchu.move sets my_direction to its argument. -/
theorem Chuchu.move_my_direction {c c' : Chuchu} {d : Direction}
    (h : c.move d = some c') : c'.my_direction = d := by
  unfold Chuchu.move at h
  by_cases hd : d = Direction.NONE
  · simp [hd] at h
  · rw [if_neg hd] at h
    cases h
    rfl

/-- Chuchu.move succeeds exactly on the directions other than NONE. -/
theorem Chuchu.move_isSome (c : Chuchu) (d : Direction) :
    (c.move d).isSome = true ↔ d ≠ Direction.NONE := by
  unfold Chuchu.move
  by_cases hd : d = Direction.NONE
  · simp [hd]
  · rw [if_neg hd]
    simp [hd]

/-- Chuchu.on_update never changes my_direction. -/
theorem Chuchu.on_update_my_direction (c : Chuchu) (dt : ℚ) :
    (c.on_update dt).my_direction = c.my_direction := by
  unfold Chuchu.on_update
  split <;> rfl

/-- Annot.ageOne never changes the position. -/
theorem Annot.ageOne_position (dt : ℚ) (a : Annot) :
    (Annot.ageOne dt a).position = a.position := rfl

/-- Annot.ageOne never changes the direction. -/
theorem Annot.ageOne_direction (dt : ℚ) (a : Annot) :
    (Annot.ageOne dt a).direction = a.direction := rfl

/-! ## Claim theorems -/

/-- Claim C4: for every tile type code 0 to 8 and every entry direction,
Tile.get_out_direction returns the documented exit direction: code 0 remaps
nothing; codes 1 to 4 remap exactly the single listed entry (1: UP to RIGHT,
2: RIGHT to DOWN, 3: DOWN to LEFT, 4: LEFT to UP); codes 5 to 8 remap exactly
the two listed entries each; every entry direction without an explicit rule
(including NONE) passes through unchanged.  Stated by full enumeration over
all 9 codes and all 5 entry directions, the tile's position being irrelevant
to routing. -/
theorem C4_routing_table :
    ((Tile.mk 0 (0, 0)).get_out_direction .UP = some .UP
      ∧ (Tile.mk 0 (0, 0)).get_out_direction .DOWN = some .DOWN
      ∧ (Tile.mk 0 (0, 0)).get_out_direction .LEFT = some .LEFT
      ∧ (Tile.mk 0 (0, 0)).get_out_direction .RIGHT = some .RIGHT
      ∧ (Tile.mk 0 (0, 0)).get_out_direction .NONE = some .NONE)
    ∧ ((Tile.mk 1 (0, 0)).get_out_direction .UP = some .RIGHT
      ∧ (Tile.mk 1 (0, 0)).get_out_direction .DOWN = some .DOWN
      ∧ (Tile.mk 1 (0, 0)).get_out_direction .LEFT = some .LEFT
      ∧ (Tile.mk 1 (0, 0)).get_out_direction .RIGHT = some .RIGHT
      ∧ (Tile.mk 1 (0, 0)).get_out_direction .NONE = some .NONE)
    ∧ ((Tile.mk 2 (0, 0)).get_out_direction .RIGHT = some .DOWN
      ∧ (Tile.mk 2 (0, 0)).get_out_direction .UP = some .UP
      ∧ (Tile.mk 2 (0, 0)).get_out_direction .DOWN = some .DOWN
      ∧ (Tile.mk 2 (0, 0)).get_out_direction .LEFT = some .LEFT
      ∧ (Tile.mk 2 (0, 0)).get_out_direction .NONE = some .NONE)
    ∧ ((Tile.mk 3 (0, 0)).get_out_direction .DOWN = some .LEFT
      ∧ (Tile.mk 3 (0, 0)).get_out_direction .UP = some .UP
      ∧ (Tile.mk 3 (0, 0)).get_out_direction .LEFT = some .LEFT
      ∧ (Tile.mk 3 (0, 0)).get_out_direction .RIGHT = some .RIGHT
      ∧ (Tile.mk 3 (0, 0)).get_out_direction .NONE = some .NONE)
    ∧ ((Tile.mk 4 (0, 0)).get_out_direction .LEFT = some .UP
      ∧ (Tile.mk 4 (0, 0)).get_out_direction .UP = some .UP
      ∧ (Tile.mk 4 (0, 0)).get_out_direction .DOWN = some .DOWN
      ∧ (Tile.mk 4 (0, 0)).get_out_direction .RIGHT = some .RIGHT
      ∧ (Tile.mk 4 (0, 0)).get_out_direction .NONE = some .NONE)
    ∧ ((Tile.mk 5 (0, 0)).get_out_direction .UP = some .RIGHT
      ∧ (Tile.mk 5 (0, 0)).get_out_direction .LEFT = some .DOWN
      ∧ (Tile.mk 5 (0, 0)).get_out_direction .DOWN = some .DOWN
      ∧ (Tile.mk 5 (0, 0)).get_out_direction .RIGHT = some .RIGHT
      ∧ (Tile.mk 5 (0, 0)).get_out_direction .NONE = some .NONE)
    ∧ ((Tile.mk 6 (0, 0)).get_out_direction .RIGHT = some .DOWN
      ∧ (Tile.mk 6 (0, 0)).get_out_direction .UP = some .LEFT
      ∧ (Tile.mk 6 (0, 0)).get_out_direction .DOWN = some .DOWN
      ∧ (Tile.mk 6 (0, 0)).get_out_direction .LEFT = some .LEFT
      ∧ (Tile.mk 6 (0, 0)).get_out_direction .NONE = some .NONE)
    ∧ ((Tile.mk 7 (0, 0)).get_out_direction .DOWN = some .LEFT
      ∧ (Tile.mk 7 (0, 0)).get_out_direction .RIGHT = some .UP
      ∧ (Tile.mk 7 (0, 0)).get_out_direction .UP = some .UP
      ∧ (Tile.mk 7 (0, 0)).get_out_direction .LEFT = some .LEFT
      ∧ (Tile.mk 7 (0, 0)).get_out_direction .NONE = some .NONE)
    ∧ ((Tile.mk 8 (0, 0)).get_out_direction .LEFT = some .UP
      ∧ (Tile.mk 8 (0, 0)).get_out_direction .DOWN = some .RIGHT
      ∧ (Tile.mk 8 (0, 0)).get_out_direction .UP = some .UP
      ∧ (Tile.mk 8 (0, 0)).get_out_direction .RIGHT = some .RIGHT
      ∧ (Tile.mk 8 (0, 0)).get_out_direction .NONE = some .NONE) := by
  refine ⟨?_, ?_, ?_, ?_, ?_, ?_, ?_, ?_, ?_⟩ <;> with_unfolding_all decide

/-- Claim C8: one Chuchu.on_update with the destination within the arrival
tolerance sets the position exactly equal to the destination (not merely
within tolerance) and marks the Chuchu as waiting for orders; a further
on_update on an arrived Chuchu leaves the position exactly at the unchanged
destination (arrival is idempotent, no floating-point residue); an on_update
with the destination strictly beyond the tolerance adds velocity times
delta_time to the position and does not change the waiting flag. -/
theorem C8_arrival (c : Chuchu) (dt dt2 : ℚ) :
    (sqDist c.my_destination_screen_coordinates c.position ≤ IS_ON_TILE_DIFF * IS_ON_TILE_DIFF →
      (c.on_update dt).position = c.my_destination_screen_coordinates
      ∧ (c.on_update dt).waiting_for_orders = true
      ∧ ((c.on_update dt).on_update dt2).position = c.my_destination_screen_coordinates
      ∧ ((c.on_update dt).on_update dt2).my_destination_screen_coordinates
          = c.my_destination_screen_coordinates)
    ∧ (sqDist c.my_destination_screen_coordinates c.position > IS_ON_TILE_DIFF * IS_ON_TILE_DIFF →
      (c.on_update dt).position
          = (c.position.1 + c.change_x * dt, c.position.2 + c.change_y * dt)
      ∧ (c.on_update dt).waiting_for_orders = c.waiting_for_orders) := by
  constructor
  · intro h
    have hnot : ¬ sqDist c.my_destination_screen_coordinates c.position
        > IS_ON_TILE_DIFF * IS_ON_TILE_DIFF := not_lt.mpr h
    have key : c.on_update dt
        = { c with
            position := c.my_destination_screen_coordinates
            waiting_for_orders := true } := by
      unfold Chuchu.on_update
      exact if_neg hnot
    have key2 : (c.on_update dt).on_update dt2 = c.on_update dt := by
      rw [key]
      unfold Chuchu.on_update
      split
    -- the moved-past-tolerance branch is impossible: the distance is zero
      · next hcond =>
        exfalso
        revert hcond
        simp [sqDist, IS_ON_TILE_DIFF]
      · rfl
    refine ⟨?_, ?_, ?_, ?_⟩
    · rw [key]
    · rw [key]
    · rw [key2, key]
    · rw [key2, key]
  · intro h
    unfold Chuchu.on_update
    rw [if_pos h]
    exact ⟨rfl, rfl⟩

/-- Claim C8 witness: the arrival branch at a concrete arrived Chuchu and the
advance branch at a concrete moving Chuchu. -/
theorem C8_arrival_witness :
    ((cWait.on_update 1).position = cWait.my_destination_screen_coordinates
      ∧ (cWait.on_update 1).waiting_for_orders = true
      ∧ ((cWait.on_update 1).on_update 1).position = cWait.my_destination_screen_coordinates
      ∧ ((cWait.on_update 1).on_update 1).my_destination_screen_coordinates
          = cWait.my_destination_screen_coordinates)
    ∧ ((cMove.on_update 1).position
          = (cMove.position.1 + cMove.change_x * 1, cMove.position.2 + cMove.change_y * 1)
      ∧ (cMove.on_update 1).waiting_for_orders = cMove.waiting_for_orders) :=
  ⟨(C8_arrival cWait 1 1).1 (by with_unfolding_all decide),
   (C8_arrival cMove 1 1).2 (by with_unfolding_all decide)⟩

/-- Claim C9: Chuchu.move fails (assertion) exactly on the NONE direction;
for every other direction d it sets my_direction to d, sets the destination
to the current position plus d scaled by TILE_SIZE, sets the per-axis
velocity to (destination minus position) divided by my_speed, and leaves the
Chuchu not waiting for orders (moving). -/
theorem C9_move (c : Chuchu) :
    c.move Direction.NONE = none
    ∧ (∀ d : Direction, c.move d = none ↔ d = Direction.NONE)
    ∧ (∀ d : Direction, d ≠ Direction.NONE →
        ∃ c', c.move d = some c'
          ∧ c'.my_direction = d
          ∧ c'.my_destination_screen_coordinates
              = (c.position.1 + TILE_SIZE * d.delta.1, c.position.2 + TILE_SIZE * d.delta.2)
          ∧ c'.change_x
              = (c'.my_destination_screen_coordinates.1 - c.position.1) / c.my_speed
          ∧ c'.change_y
              = (c'.my_destination_screen_coordinates.2 - c.position.2) / c.my_speed
          ∧ c'.waiting_for_orders = false) := by
  refine ⟨by simp [Chuchu.move], fun d => ?_, fun d hd => ?_⟩
  · unfold Chuchu.move
    by_cases hd : d = Direction.NONE
    · simp [hd]
    · rw [if_neg hd]
      simp [hd]
  · unfold Chuchu.move
    rw [if_neg hd]
    refine ⟨_, rfl, rfl, ?_, rfl, rfl, rfl⟩
    simp only [Direction.mulScalar, Prod.mk.injEq]
    exact ⟨by ring, by ring⟩

/-- Claim C9 witness: the NONE failure and a successful UP move at a concrete
Chuchu. -/
theorem C9_move_witness :
    cMove.move Direction.NONE = none
    ∧ ∃ c', cMove.move Direction.UP = some c'
        ∧ c'.my_direction = Direction.UP
        ∧ c'.my_destination_screen_coordinates
            = (cMove.position.1 + TILE_SIZE * Direction.UP.delta.1,
               cMove.position.2 + TILE_SIZE * Direction.UP.delta.2)
        ∧ c'.change_x
            = (c'.my_destination_screen_coordinates.1 - cMove.position.1) / cMove.my_speed
        ∧ c'.change_y
            = (c'.my_destination_screen_coordinates.2 - cMove.position.2) / cMove.my_speed
        ∧ c'.waiting_for_orders = false :=
  ⟨(C9_move cMove).1, (C9_move cMove).2.2 Direction.UP (by decide)⟩

/-- Claim C3: the claim states level_clear is true exactly when the drains'
consumed total equals the emitters' capacity total or time has run out.  The
code compares the two totals with the Python is operator instead of ==, so
for equal totals outside CPython's small-int cache (greater than 256) the
comparison is False and the level is not reported clear: at st_C3 both totals
are 257 and time remains, yet level_clear is false.  At st_C3_small (totals
5 and 5, inside the cache) level_clear is true, matching the documented
intent. -/
theorem C3_is_comparison_bug :
    Level.level_clear st_C3 = false
    ∧ total_drained st_C3.drains = total_capacity st_C3.emitters
    ∧ ¬ st_C3.time_left ≤ 0
    ∧ Level.level_clear st_C3_small = true := by
  refine ⟨?_, ?_, ?_, ?_⟩ <;> with_unfolding_all decide

/-- Claim C1 counterexample: at st_C1 a waiting agent that entered UP sits on
a type-1 tile (whose rule routes UP to RIGHT) together with an annotation
specifying UP.  The claim says the resolution sets the agent's direction to
the annotation's direction UP; the step instead leaves it RIGHT, because the
tile's routing rule is applied on top of the annotation's direction. -/
theorem C1_counterexample :
    (Level.on_update st_C1 1).map (fun s => s.chuchus.map fun c => c.my_direction)
        = some [Direction.RIGHT]
    ∧ annUp100.direction = Direction.UP
    ∧ Direction.RIGHT ≠ Direction.UP := by
  refine ⟨?_, ?_, ?_⟩ <;> with_unfolding_all decide

/-- Claim C2 counterexample: at st_C2 the first agent is idle on a drain cell
and the second agent is active and moving with velocity (32, 0).  The claim
says every active agent advances by its velocity times dt in the step; after
the step with dt = 1 the second agent's position is unchanged at (200, 100)
rather than (232, 100), because consuming the first agent breaks out of the
loop before the second agent is reached. -/
theorem C2_counterexample :
    (Level.on_update st_C2 1).map (fun s => s.chuchus.map fun c => c.position)
        = some [(200, 100)]
    ∧ ((cMove.position.1 + cMove.change_x * 1, cMove.position.2 + cMove.change_y * 1)
        : ℚ × ℚ) ≠ (200, 100)
    ∧ cMove.waiting_for_orders = false := by
  refine ⟨?_, ?_, ?_⟩ <;> with_unfolding_all decide

/-- Claim C6 counterexample: at st_C6 the only annotation has exactly 10
seconds of lifetime left and the step runs with dt = 10, so its lifetime
reaches 0 during this step's aging.  The claim says such an annotation is
removed and never consulted by this step's resolution; instead, after the
step the annotation is still present (lifetime 0) and the waiting agent on
its cell was routed to the annotation's direction DOWN (a type-0 tile passes
DOWN through unchanged), not its incoming direction UP. -/
theorem C6_counterexample :
    (Level.on_update st_C6 10).map
        (fun s => (s.annotations.map fun a => a.lifetime,
                   s.chuchus.map fun c => c.my_direction))
      = some ([0], [Direction.DOWN])
    ∧ (0 : ℚ) ≤ 0
    ∧ Direction.DOWN ≠ Direction.UP := by
  refine ⟨?_, ?_, ?_⟩ <;> with_unfolding_all decide

/-- Claim C1 (amended): for an agent that becomes idle on a non-drain cell
occupied by a live annotation, the step's resolution first sets the agent's
direction to the annotation's direction and then applies the tile's routing
rule to that direction: the outgoing direction is the tile's out-direction
for the annotation's direction (so it equals the annotation's direction only
when the tile has no explicit rule for it; on the claim's scenario of a
type-1 tile routing the agent RIGHT with an annotation specifying UP, the
final direction is RIGHT, not UP). -/
theorem C1_amended_resolution (delta_time : ℚ) (tiles : List Tile)
    (anns : List Annot) (ds : List Drain) (c : Chuchu) (a : Annot) (t : Tile)
    (r : Direction) (rest : List Chuchu)
    (hw : c.waiting_for_orders = true)
    (hd : drain_index_from_screen_coordinates c.position ds = none)
    (ha : get_sprite_from_screen_coordinates c.position anns Annot.position = some a)
    (hadir : a.direction ≠ Direction.NONE)
    (ht : get_sprite_from_screen_coordinates c.position tiles Tile.position = some t)
    (hr : t.get_out_direction a.direction = some r)
    (hrne : r ≠ Direction.NONE) :
    ∃ c2, processChuchu delta_time tiles anns c = some c2
      ∧ c2.my_direction = r
      ∧ handleChuchus delta_time tiles anns (c :: rest) ds
          = (handleChuchus delta_time tiles anns rest ds).map fun p => (c2 :: p.1, p.2) := by
  obtain ⟨c1, hc1⟩ : ∃ c1, c.move a.direction = some c1 :=
    Option.isSome_iff_exists.mp ((Chuchu.move_isSome c a.direction).mpr hadir)
  have hc1pos : c1.position = c.position := Chuchu.move_position hc1
  have hc1dir : c1.my_direction = a.direction := Chuchu.move_my_direction hc1
  obtain ⟨c2, hc2⟩ : ∃ c2, c1.move r = some c2 :=
    Option.isSome_iff_exists.mp ((Chuchu.move_isSome c1 r).mpr hrne)
  have hc2dir : c2.my_direction = r := Chuchu.move_my_direction hc2
  have hproc : processChuchu delta_time tiles anns c = some (c2.on_update delta_time) := by
    simp only [processChuchu, hw, if_true, ha, hc1, hc1pos, ht, hc1dir, hr, hc2]
  refine ⟨c2.on_update delta_time, hproc, ?_, ?_⟩
  · rw [Chuchu.on_update_my_direction, hc2dir]
  · have hscrut : (if c.waiting_for_orders = true then
        drain_index_from_screen_coordinates c.position ds else none) = none := by
      rw [if_pos hw]
      exact hd
    simp only [handleChuchus, hscrut, hproc]
    cases h : handleChuchus delta_time tiles anns rest ds with
    | none => rfl
    | some p => rfl

/-- Claim C1 witness for the amended theorem: the concrete scenario of a
type-1 tile, a waiting agent that entered UP, and an annotation specifying
UP, where the resolved direction is the tile's routing of UP, namely RIGHT. -/
theorem C1_amended_witness :
    ∃ c2, processChuchu 1 [tile1At100] [annUp100] cWait = some c2
      ∧ c2.my_direction = Direction.RIGHT
      ∧ handleChuchus 1 [tile1At100] [annUp100] [cWait] []
          = (handleChuchus 1 [tile1At100] [annUp100] [] []).map fun p => (c2 :: p.1, p.2) :=
  C1_amended_resolution 1 [tile1At100] [annUp100] [] cWait annUp100 tile1At100
    Direction.RIGHT []
    (by with_unfolding_all decide) (by with_unfolding_all decide)
    (by with_unfolding_all decide) (by with_unfolding_all decide)
    (by with_unfolding_all decide) (by with_unfolding_all decide)
    (by with_unfolding_all decide)

/-- Claim C2 (amended): in one pass of the step's agent loop, provided no
idle agent sits on a drain cell, every idle agent is resolved exactly once
and every agent receives exactly one motion update (the loop equals applying
processChuchu to every agent in order, drains unchanged); but when the loop
reaches an idle agent on a drain cell (the first such agent, all agents
before it being off-drain), that agent is removed and counted and the
remaining agents after it are skipped for both resolution and motion this
step. -/
theorem C2_amended_step_loop (delta_time : ℚ) (tiles : List Tile) (anns : List Annot) :
    (∀ (cs : List Chuchu) (ds : List Drain),
      (∀ c ∈ cs, c.waiting_for_orders = true →
          drain_index_from_screen_coordinates c.position ds = none) →
      handleChuchus delta_time tiles anns cs ds
        = (processAllChuchus delta_time tiles anns cs).map fun l => (l, ds))
    ∧ (∀ (pre : List Chuchu) (c : Chuchu) (post : List Chuchu) (ds : List Drain) (i : Nat),
      (∀ c2 ∈ pre, c2.waiting_for_orders = true →
          drain_index_from_screen_coordinates c2.position ds = none) →
      c.waiting_for_orders = true →
      drain_index_from_screen_coordinates c.position ds = some i →
      handleChuchus delta_time tiles anns (pre ++ c :: post) ds
        = (processAllChuchus delta_time tiles anns pre).map
            fun l => (l ++ post, listModify Drain.drained i ds)) := by
  constructor
  · intro cs
    induction cs with
    | nil =>
      intro ds h
      simp [handleChuchus, processAllChuchus]
    | cons c rest ih =>
      intro ds h
      have hscrut : (if c.waiting_for_orders = true then
          drain_index_from_screen_coordinates c.position ds else none) = none := by
        by_cases hw : c.waiting_for_orders = true
        · rw [if_pos hw]
          exact h c (List.mem_cons_self c rest) hw
        · rw [if_neg hw]
      simp only [handleChuchus, hscrut]
      cases hp : processChuchu delta_time tiles anns c with
      | none => simp [processAllChuchus, hp]
      | some c2 =>
        rw [ih ds fun x hx hwx => h x (List.mem_cons_of_mem c hx) hwx]
        cases hall : processAllChuchus delta_time tiles anns rest with
        | none => simp [processAllChuchus, hp, hall]
        | some l => simp [processAllChuchus, hp, hall]
  · intro pre
    induction pre with
    | nil =>
      intro c post ds i hpre hw hdi
      have hscrut : (if c.waiting_for_orders = true then
          drain_index_from_screen_coordinates c.position ds else none) = some i := by
        rw [if_pos hw]
        exact hdi
      simp [handleChuchus, hscrut, processAllChuchus]
    | cons p pre' ih =>
      intro c post ds i hpre hw hdi
      have hscrutp : (if p.waiting_for_orders = true then
          drain_index_from_screen_coordinates p.position ds else none) = none := by
        by_cases hwp : p.waiting_for_orders = true
        · rw [if_pos hwp]
          exact hpre p (List.mem_cons_self p pre') hwp
        · rw [if_neg hwp]
      simp only [List.cons_append, handleChuchus, hscrutp, List.append_eq]
      cases hp : processChuchu delta_time tiles anns p with
      | none => simp [processAllChuchus, hp]
      | some p2 =>
        rw [ih c post ds i (fun x hx => hpre x (List.mem_cons_of_mem p hx)) hw hdi]
        cases hall : processAllChuchus delta_time tiles anns pre' with
        | none => simp [processAllChuchus, hp, hall]
        | some l => simp [processAllChuchus, hp, hall]

/-- Claim C2 witness for the amended theorem: a drain-free pass over one
moving agent, and a pass that consumes a waiting agent at the head and skips
the moving agent behind it. -/
theorem C2_amended_witness :
    (handleChuchus 1 [] [] [cMove] [drainAt100]
      = (processAllChuchus 1 [] [] [cMove]).map fun l => (l, [drainAt100]))
    ∧ (handleChuchus 1 [] [] ([] ++ cWait :: [cMove]) [drainAt100]
      = (processAllChuchus 1 [] [] []).map
          fun l => (l ++ [cMove], listModify Drain.drained 0 [drainAt100])) :=
  ⟨(C2_amended_step_loop 1 [] []).1 [cMove] [drainAt100]
      (by with_unfolding_all decide),
   (C2_amended_step_loop 1 [] []).2 [] cWait [cMove] [drainAt100] 0
      (by with_unfolding_all decide) (by with_unfolding_all decide)
      (by with_unfolding_all decide)⟩

/-- Emitter.on_update (cooldown aging) never touches the queue. -/
theorem Emitter.on_update_queue (e : Emitter) (dt : ℚ) :
    (e.on_update dt).chuchus_queue = e.chuchus_queue := by
  unfold Emitter.on_update
  split <;> rfl

/-- Behaviour of Emitter.get_chuchu: a Chuchu is returned exactly when the
cooldown has expired and the queue is non-empty; a successful release resets
the cooldown to emit_rate and pops exactly the last queued Chuchu; a failed
release changes nothing. -/
theorem Emitter.get_chuchu_spec (e : Emitter) :
    (e.get_chuchu.1.isSome = true ↔ e.emit_timer ≤ 0 ∧ e.chuchus_queue ≠ [])
    ∧ (e.get_chuchu.1.isSome = true →
        e.get_chuchu.2.emit_timer = e.emit_rate
        ∧ e.get_chuchu.2.chuchus_queue = e.chuchus_queue.dropLast
        ∧ e.get_chuchu.2.chuchus_queue.length + 1 = e.chuchus_queue.length)
    ∧ (e.get_chuchu.1.isSome = false → e.get_chuchu.2 = e) := by
  unfold Emitter.get_chuchu
  by_cases hcond : e.chuchus_queue ≠ [] ∧ e.emit_timer ≤ 0
  · rw [if_pos hcond]
    obtain ⟨hne, hle⟩ := hcond
    cases hq : e.chuchus_queue.getLast? with
    | none => exact absurd (List.getLast?_eq_none_iff.mp hq) hne
    | some cl =>
      refine ⟨by simp [hle, hne], fun _ => ⟨rfl, rfl, ?_⟩, fun hfalse => by simp at hfalse⟩
      show e.chuchus_queue.dropLast.length + 1 = e.chuchus_queue.length
      have h1 := List.length_dropLast e.chuchus_queue
      have h2 : 0 < e.chuchus_queue.length := List.length_pos.mpr hne
      omega
  · rw [if_neg hcond]
    refine ⟨?_, fun habs => by simp at habs, fun _ => rfl⟩
    simp only [Option.isSome_none, Bool.false_eq_true, false_iff]
    intro hconj
    exact hcond ⟨hconj.2, hconj.1⟩

/-- Invariant of runOps: the number of Chuchus released so far plus the
remaining queue length equals the initial queue length (so the queue is
never refilled and releases are bounded by the initial queue). -/
theorem runOps_queue_length (ops : List EmitterOp) :
    ∀ e : Emitter,
      (runOps e ops).2 + (runOps e ops).1.chuchus_queue.length
        = e.chuchus_queue.length := by
  induction ops with
  | nil =>
    intro e
    simp [runOps]
  | cons op ops ih =>
    intro e
    cases op with
    | tick dt =>
      have h := ih (e.on_update dt)
      rw [Emitter.on_update_queue] at h
      simpa [runOps] using h
    | tryRelease =>
      have hspec := Emitter.get_chuchu_spec e
      cases hge : e.get_chuchu with
      | mk copt e2 =>
        rw [hge] at hspec
        have hrec := ih e2
        simp only [runOps, hge]
        cases hs : copt.isSome with
        | true =>
          have hlen := (hspec.2.1 hs).2.2
          simp only [] at hlen
          simp only [hs, if_true]
          omega
        | false =>
          have he2 : e2 = e := hspec.2.2 hs
          simp only [hs, Bool.false_eq_true, if_false]
          rw [he2] at hrec ⊢
          omega

/-- Claim C5: for an emitter whose queue initially holds capacity-many
Chuchus (the constructor's invariant), over any sequence of cooldown ticks
and release attempts the total number of Chuchus ever released is at most
the capacity; a release attempt returns a Chuchu exactly when the cooldown
timer is at most 0 and the queue is non-empty; a successful release resets
the timer to the emission interval and removes exactly one Chuchu (the last,
a stack pop) from the queue; and the queue length never grows (it is never
refilled). -/
theorem C5_emitter_capacity (e : Emitter) (ops : List EmitterOp)
    (hcap : e.chuchus_queue.length = e.capacity) :
    (runOps e ops).2 ≤ e.capacity
    ∧ (∀ e2 : Emitter, e2.get_chuchu.1.isSome = true
        ↔ e2.emit_timer ≤ 0 ∧ e2.chuchus_queue ≠ [])
    ∧ (∀ e2 : Emitter, e2.get_chuchu.1.isSome = true →
        e2.get_chuchu.2.emit_timer = e2.emit_rate
        ∧ e2.get_chuchu.2.chuchus_queue = e2.chuchus_queue.dropLast
        ∧ e2.get_chuchu.2.chuchus_queue.length + 1 = e2.chuchus_queue.length)
    ∧ (∀ ops2 : List EmitterOp,
        (runOps e ops2).1.chuchus_queue.length ≤ e.chuchus_queue.length) := by
  refine ⟨?_, fun e2 => (Emitter.get_chuchu_spec e2).1,
    fun e2 => (Emitter.get_chuchu_spec e2).2.1, ?_⟩
  · have h := runOps_queue_length ops e
    omega
  · intro ops2
    have h := runOps_queue_length ops2 e
    omega

/-- Claim C5 witness: a capacity-2 emitter with four release attempts
releases at most 2 Chuchus. -/
theorem C5_emitter_capacity_witness :
    (runOps em2 ops_C5).2 ≤ em2.capacity :=
  (C5_emitter_capacity em2 ops_C5 (by with_unfolding_all decide)).1

/-- Unfolding equation of the aging pass at a head annotation whose lifetime
is still positive: it is aged in place and the pass continues on the tail. -/
theorem annotsOnUpdate_cons_pos (delta_time : ℚ) (a : Annot) (t : List Annot)
    (ha : 0 < a.lifetime) :
    annotsOnUpdate delta_time (a :: t)
      = Annot.ageOne delta_time a :: annotsOnUpdate delta_time t := by
  cases t with
  | nil =>
    unfold annotsOnUpdate
    rw [if_neg (not_le.mpr ha)]
    rfl
  | cons b t2 =>
    unfold annotsOnUpdate
    rw [if_neg (not_le.mpr ha)]
    congr 1
    rw [annotsOnUpdate.eq_def]

/-- Aging retention: when every annotation in the list is still alive (its
lifetime was positive at the start of the step), the aging pass removes
nothing — every annotation is retained with its alpha recomputed and its
lifetime decremented, including any annotation whose lifetime thereby
reaches 0 or below. -/
theorem annotsOnUpdate_all_pos (delta_time : ℚ) :
    ∀ l : List Annot, (∀ a ∈ l, 0 < a.lifetime) →
      annotsOnUpdate delta_time l = l.map (Annot.ageOne delta_time) := by
  intro l
  induction l with
  | nil => intro _; rfl
  | cons a t ih =>
    intro h
    rw [annotsOnUpdate_cons_pos delta_time a t (h a (List.mem_cons_self a t)),
      List.map_cons, ih fun x hx => h x (List.mem_cons_of_mem a hx)]

/-- Claim C6 (amended): the aging pass removes an annotation only when its
lifetime was already at most 0 before this step's decrement; an annotation
whose lifetime first reaches 0 during this step's aging survives the step
(with its lifetime now at most 0) and is still consulted by this same step's
resolution, which runs against the aged list: here the waiting agent on its
cell is routed to the tile's out-direction for the expiring annotation's
direction.  Such an annotation is only removed by a later step's aging. -/
theorem C6_amended_expiry_lag (delta_time : ℚ) (st : Level) (a : Annot)
    (c : Chuchu) (t : Tile) (r : Direction)
    (hanns : st.annotations = [a])
    (hpos : 0 < a.lifetime)
    (hexp : a.lifetime ≤ delta_time)
    (hcs : st.chuchus = [c])
    (hem : st.emitters = [])
    (hw : c.waiting_for_orders = true)
    (hd : drain_index_from_screen_coordinates c.position
        (st.drains.map fun d => d.on_update delta_time) = none)
    (hnear : sqDist a.position c.position < IS_ON_TILE_DIFF * IS_ON_TILE_DIFF)
    (hadir : a.direction ≠ Direction.NONE)
    (ht : get_sprite_from_screen_coordinates c.position st.tiles Tile.position = some t)
    (hr : t.get_out_direction a.direction = some r)
    (hrne : r ≠ Direction.NONE) :
    ∃ st' c2, Level.on_update st delta_time = some st'
      ∧ st'.annotations = [Annot.ageOne delta_time a]
      ∧ (Annot.ageOne delta_time a).lifetime ≤ 0
      ∧ st'.chuchus = [c2]
      ∧ c2.my_direction = r := by
  have haged : annotsOnUpdate delta_time [a] = [Annot.ageOne delta_time a] := by
    simp only [annotsOnUpdate, if_neg (not_le.mpr hpos)]
  have hfind : get_sprite_from_screen_coordinates c.position
      [Annot.ageOne delta_time a] Annot.position = some (Annot.ageOne delta_time a) := by
    simp only [get_sprite_from_screen_coordinates, List.find?]
    rw [show (Annot.ageOne delta_time a).position = a.position from rfl]
    simp [hnear]
  obtain ⟨c1, hc1⟩ : ∃ c1, c.move a.direction = some c1 :=
    Option.isSome_iff_exists.mp ((Chuchu.move_isSome c a.direction).mpr hadir)
  have hc1pos : c1.position = c.position := Chuchu.move_position hc1
  have hc1dir : c1.my_direction = a.direction := Chuchu.move_my_direction hc1
  obtain ⟨c2, hc2⟩ : ∃ c2, c1.move r = some c2 :=
    Option.isSome_iff_exists.mp ((Chuchu.move_isSome c1 r).mpr hrne)
  have hc2dir : c2.my_direction = r := Chuchu.move_my_direction hc2
  have hproc : processChuchu delta_time st.tiles [Annot.ageOne delta_time a] c
      = some (c2.on_update delta_time) := by
    simp only [processChuchu, hw, if_true, hfind]
    rw [show (Annot.ageOne delta_time a).direction = a.direction from rfl]
    simp only [hc1, hc1pos, ht, hc1dir, hr, hc2]
  have hscrut : (if c.waiting_for_orders = true then
      drain_index_from_screen_coordinates c.position
        (st.drains.map fun d => d.on_update delta_time)
    else none) = none := by
    rw [if_pos hw]
    exact hd
  have hloop : handleChuchus delta_time st.tiles [Annot.ageOne delta_time a] [c]
      (st.drains.map fun d => d.on_update delta_time)
      = some ([c2.on_update delta_time],
          st.drains.map fun d => d.on_update delta_time) := by
    simp only [handleChuchus, hscrut, hproc]
  have hstep : Level.on_update st delta_time = some { st with
      annotations := [Annot.ageOne delta_time a]
      drains := st.drains.map fun d => d.on_update delta_time
      emitters := []
      chuchus := [c2.on_update delta_time]
      time_left := st.time_left - delta_time } := by
    simp only [Level.on_update, hanns, hcs, hem, haged, emittersPhase, List.append_nil]
    rw [hloop]
  refine ⟨_, c2.on_update delta_time, hstep, rfl, ?_, rfl, ?_⟩
  · show a.lifetime - delta_time ≤ 0
    linarith
  · rw [Chuchu.on_update_my_direction, hc2dir]

/-- Claim C6 witness for the amended theorem: the st_C6 scenario, where the
annotation with 10 seconds left survives a step of dt = 10 with lifetime 0
and still routes the waiting agent to DOWN. -/
theorem C6_amended_witness :
    ∃ st' c2, Level.on_update st_C6 10 = some st'
      ∧ st'.annotations = [Annot.ageOne 10 annDown100]
      ∧ (Annot.ageOne 10 annDown100).lifetime ≤ 0
      ∧ st'.chuchus = [c2]
      ∧ c2.my_direction = Direction.DOWN :=
  C6_amended_expiry_lag 10 st_C6 annDown100 cWait tile0At100 Direction.DOWN
    rfl (by with_unfolding_all decide) (by with_unfolding_all decide)
    rfl rfl (by with_unfolding_all decide) (by with_unfolding_all decide)
    (by with_unfolding_all decide) (by with_unfolding_all decide)
    (by with_unfolding_all decide) (by with_unfolding_all decide)
    (by with_unfolding_all decide)

/-- Removing the first annotation owned by o drops exactly the first (oldest)
element of o's filtered sub-list and nothing else of it. -/
theorem eraseFirstOwned_filter_eq (o : Nat) :
    ∀ l : List Annot, (eraseFirstOwned o l).filter (fun a => a.owner == o)
      = ((l.filter fun a => a.owner == o).drop 1) := by
  intro l
  induction l with
  | nil => rfl
  | cons a t ih =>
    by_cases h : a.owner = o
    · simp [eraseFirstOwned, List.filter_cons, beq_iff_eq, h]
    · simp [eraseFirstOwned, List.filter_cons, beq_iff_eq, h, ih]

/-- Removing the first annotation owned by o leaves every other owner's
annotations untouched. -/
theorem eraseFirstOwned_filter_ne (o o2 : Nat) (hne : o2 ≠ o) :
    ∀ l : List Annot, (eraseFirstOwned o l).filter (fun a => a.owner == o2)
      = l.filter fun a => a.owner == o2 := by
  intro l
  induction l with
  | nil => rfl
  | cons a t ih =>
    by_cases h : a.owner = o
    · have h2 : ¬ o = o2 := fun hh => hne hh.symm
      simp [eraseFirstOwned, List.filter_cons, beq_iff_eq, h, h2]
    · simp [eraseFirstOwned, List.filter_cons, beq_iff_eq, h, ih]

/-- Claim C7: when an owner has exactly 3 live annotations and places a new
one at a cell not already occupied by any annotation, the placement removes
exactly the oldest of that owner's annotations (the first in the
append-ordered list) and leaves the remaining two plus the newly created
one; the annotations of every other owner are unchanged; and the whole list
becomes the original minus the owner's oldest plus the new annotation
appended. -/
theorem C7_eviction (st : Level) (o : Nat) (p : ℚ × ℚ) (d : Direction)
    (hfree : get_sprite_from_screen_coordinates p st.annotations Annot.position = none)
    (h3 : (st.annotations.filter fun a => a.owner == o).length = 3) :
    ((st.add_annot o p d).annotations.filter fun a => a.owner == o)
        = ((st.annotations.filter fun a => a.owner == o).drop 1) ++ [mkAnnot d o p]
    ∧ (∀ o2, o2 ≠ o → ((st.add_annot o p d).annotations.filter fun a => a.owner == o2)
        = st.annotations.filter fun a => a.owner == o2)
    ∧ (st.add_annot o p d).annotations
        = eraseFirstOwned o st.annotations ++ [mkAnnot d o p] := by
  have hbase : (st.add_annot o p d).annotations
      = eraseFirstOwned o st.annotations ++ [mkAnnot d o p] := by
    unfold Level.add_annot
    rw [hfree]
    simp only [Option.isSome_none, Bool.false_eq_true, if_false]
    rw [if_pos]
    · rw [h3]
      simp [ANNOTATION_MAX_NO]
  refine ⟨?_, ?_, hbase⟩
  · rw [hbase, List.filter_append, eraseFirstOwned_filter_eq]
    have hnew : (mkAnnot d o p).owner = o := rfl
    simp [List.filter_cons, beq_iff_eq, hnew]
  · intro o2 hne
    rw [hbase, List.filter_append, eraseFirstOwned_filter_ne o o2 hne]
    have hnew : ¬ (mkAnnot d o p).owner = o2 := by
      show ¬ o = o2
      exact fun hh => hne hh.symm
    simp [List.filter_cons, beq_iff_eq, hnew]

/-- Claim C7 witness: owner 0 holds 3 annotations in st_C7 (plus one owned by
owner 1); placing a 4th at the free cell (256, 0) drops owner 0's oldest and
keeps the other two plus the new one. -/
theorem C7_eviction_witness :
    ((st_C7.add_annot 0 (256, 0) Direction.UP).annotations.filter fun a => a.owner == 0)
      = ((st_C7.annotations.filter fun a => a.owner == 0).drop 1)
          ++ [mkAnnot Direction.UP 0 (256, 0)] :=
  (C7_eviction st_C7 0 (256, 0) Direction.UP (by with_unfolding_all decide)
    (by with_unfolding_all decide)).1

/-- Drain.on_update (timer aging) never changes the consumed counter. -/
theorem Drain.on_update_no_drained (d : Drain) (dt : ℚ) :
    (d.on_update dt).no_drained = d.no_drained := by
  unfold Drain.on_update
  split
  · rfl
  · split <;> rfl

/-- Aging all drain timers preserves the total consumed count. -/
theorem total_drained_map_on_update (dt : ℚ) :
    ∀ ds : List Drain,
      total_drained (ds.map fun d => d.on_update dt) = total_drained ds := by
  intro ds
  induction ds with
  | nil => rfl
  | cons d t ih =>
    simp only [List.map_cons, total_drained, List.sum_cons] at ih ⊢
    rw [Drain.on_update_no_drained]
    omega

/-- Applying Drain.drained to one list entry raises the total consumed count
by at most one (exactly one when the index is in range). -/
theorem total_drained_listModify :
    ∀ (i : Nat) (ds : List Drain),
      total_drained (listModify Drain.drained i ds) ≤ total_drained ds + 1 := by
  intro i ds
  induction ds generalizing i with
  | nil =>
    cases i <;> simp [listModify, total_drained]
  | cons d t ih =>
    cases i with
    | zero =>
      simp only [listModify, total_drained, List.map_cons, List.sum_cons]
      have hd : (Drain.drained d).no_drained = d.no_drained + 1 := rfl
      omega
    | succ n =>
      simp only [listModify, total_drained, List.map_cons, List.sum_cons]
      have h := ih n
      simp only [total_drained] at h
      omega

/-- Over one pass of the step's agent loop the total consumed count grows by
at most one: the loop breaks immediately after the first consumption. -/
theorem handleChuchus_drained_le (delta_time : ℚ) (tiles : List Tile)
    (anns : List Annot) :
    ∀ (cs : List Chuchu) (ds : List Drain) (out : List Chuchu × List Drain),
      handleChuchus delta_time tiles anns cs ds = some out →
      total_drained out.2 ≤ total_drained ds + 1 := by
  intro cs
  induction cs with
  | nil =>
    intro ds out h
    simp only [handleChuchus, Option.some.injEq] at h
    rw [← h]
    exact Nat.le_succ _
  | cons c rest ih =>
    intro ds out h
    simp only [handleChuchus] at h
    cases hscrut : (if c.waiting_for_orders = true then
        drain_index_from_screen_coordinates c.position ds else none) with
    | some i =>
      simp only [hscrut, Option.some.injEq] at h
      rw [← h]
      exact total_drained_listModify i ds
    | none =>
      simp only [hscrut] at h
      cases hp : processChuchu delta_time tiles anns c with
      | none =>
        simp [hp] at h
      | some c2 =>
        simp only [hp] at h
        cases hrec : handleChuchus delta_time tiles anns rest ds with
        | none => simp [hrec] at h
        | some q =>
          simp only [hrec, Option.some.injEq] at h
          have hle := ih ds q hrec
          rw [← h]
          exact hle

/-- Claim C10: in any single call of the Level step, the total consumed
count over all drains grows by at most one; and once the loop finds an idle
agent on a drain cell, it returns immediately with that agent removed, that
drain counted, and every remaining agent untouched (no further resolution
or consumption in this call). -/
theorem C10_single_consumption (st st' : Level) (delta_time : ℚ)
    (h : Level.on_update st delta_time = some st') :
    total_drained st'.drains ≤ total_drained st.drains + 1
    ∧ (∀ (tiles : List Tile) (anns : List Annot) (c : Chuchu)
        (rest : List Chuchu) (ds : List Drain) (i : Nat),
        c.waiting_for_orders = true →
        drain_index_from_screen_coordinates c.position ds = some i →
        handleChuchus delta_time tiles anns (c :: rest) ds
          = some (rest, listModify Drain.drained i ds)) := by
  constructor
  · simp only [Level.on_update] at h
    cases hloop : handleChuchus delta_time st.tiles
        (annotsOnUpdate delta_time st.annotations)
        (st.chuchus ++ (emittersPhase delta_time st.emitters).2)
        (st.drains.map fun d => d.on_update delta_time) with
    | none =>
      rw [hloop] at h
      exact absurd h (by simp)
    | some p =>
      rw [hloop] at h
      have hle := handleChuchus_drained_le delta_time st.tiles
        (annotsOnUpdate delta_time st.annotations)
        (st.chuchus ++ (emittersPhase delta_time st.emitters).2)
        (st.drains.map fun d => d.on_update delta_time) p hloop
      rw [total_drained_map_on_update] at hle
      have hdrains : st'.drains = p.2 := by
        cases h
        rfl
      rw [hdrains]
      exact hle
  · intro tiles anns c rest ds i hw hdi
    have hscrut : (if c.waiting_for_orders = true then
        drain_index_from_screen_coordinates c.position ds else none) = some i := by
      rw [if_pos hw]
      exact hdi
    simp only [handleChuchus, hscrut]

/-- Claim C10 witness: the st_C2 step (which consumes one agent) increases
the total consumed count by at most one. -/
theorem C10_single_consumption_witness :
    ∃ st', Level.on_update st_C2 1 = some st'
      ∧ total_drained st'.drains ≤ total_drained st_C2.drains + 1 := by
  cases hh : Level.on_update st_C2 1 with
  | none => exact absurd hh (by with_unfolding_all decide)
  | some st' => exact ⟨st', rfl, (C10_single_consumption st_C2 st' 1 hh).1⟩
